import Mathlib

/-!
Shallow embedding of the `anlpy2` event-flag accounting engine and analysis
loop (files `event_flags.py`, `analysis_framework.py`, `analysis_status.py`).

Modelling conventions:
* Python `float` flag values are modelled as `Rat` (the claims are about the
  bookkeeping algebra, not floating-point rounding).
* `EventFlags.__dict_of_flags` is a Python `dict` keyed by flag name and
  preserving insertion order; it is modelled as a `List Flag` whose elements
  carry their key, with lookup returning the first match.  `define` only
  inserts a key that is absent, so keys stay distinct along every reachable
  state, exactly as in a dict.
* A Python method with no `return` statement returns `None`; methods that
  `return False` on a missing key and otherwise fall off the end are modelled
  with result type `Option Bool` (`some false` = Python `False`, `none` =
  Python `None`).
* Printing is modelled by returning the printed data (`Report`,
  progress-signal traces) instead of writing to stdout.
-/

namespace Anlpy2

/-- `AnalysisStatus` enum from `analysis_status.py`. -/
inductive AnalysisStatus where
  | OKEvent
  | SkipEvent
  | QuitLoop
  | OKFunc
  | ErrFunc
deriving Repr, DecidableEq

/-- Python runtime errors that the embedded code can raise. -/
inductive PyError where
  | zeroDiv
  | nameError
deriving Repr, DecidableEq

/-- One `EventFlags` instance: the per-flag state `__key`, `__count`
(current per-record value), `__isset`, `__accum` (accumulated total). -/
structure Flag where
  key : String
  count : Rat
  isset : Bool
  accum : Rat
deriving Repr, DecidableEq

/-- The class-level dict `EventFlags.__dict_of_flags`, in insertion order. -/
abbrev Registry := List Flag

/-- Dict lookup `EventFlags.__dict_of_flags[key]` (first entry with the key). -/
def lookup (st : Registry) (key : String) : Option Flag :=
  st.find? (fun f => f.key == key)

/-- `EventFlags.has(key)`: membership test `key in EventFlags.__dict_of_flags`. -/
def has (st : Registry) (key : String) : Bool :=
  (lookup st key).isSome

/-- `EventFlags.ndef()`: number of defined flags. -/
def ndef (st : Registry) : Nat :=
  st.length

/-- The `while` loop of `EventFlags.__newkey`, with explicit fuel.  The loop
tries `key-iter` for `iter = 2, 3, ...` until an unused candidate is found;
at most `st.length` candidates can collide, so fuel `st.length + 1` always
suffices and the fuel-exhausted branch is unreachable. -/
def newkeyAux (st : Registry) (key : String) : Nat → Nat → String
  | 0, iter => key ++ "-" ++ toString iter
  | fuel + 1, iter =>
    let candidate := key ++ "-" ++ toString iter
    if has st candidate = false then candidate
    else newkeyAux st key fuel (iter + 1)

/-- `EventFlags.__newkey(key)`: smallest `key-iter` with `iter ≥ 2` that is
not yet registered. -/
def newkey (st : Registry) (key : String) : String :=
  newkeyAux st key (st.length + 1) 2

/-- `EventFlags.__init__(self, key)`: picks a disambiguated key when `key`
collides, and initialises `__count = 0.0`, `__isset = False`, `__accum = 0.0`.
The constructor does not register the instance (that line is commented out in
the source). -/
def initFlag (st : Registry) (key : String) : Flag :=
  { key := if has st key then newkey st key else key
    count := 0
    isset := false
    accum := 0 }

/-- `EventFlags.define(key)`: returns unchanged if `key` is already present,
otherwise constructs a flag and inserts it under `temp.__key` (dict insertion
appends at the end of the iteration order). -/
def define (st : Registry) (key : String) : Registry :=
  if has st key = true then st
  else st ++ [initFlag st key]

/-- `EventFlags.set(key, val)`: returns `False` if `key` is undefined,
otherwise overwrites `__count` with `val`, marks `__isset`, and returns
`None` (no `return` statement).  `val` defaults to `1.0` in the source; the
default is passed explicitly at call sites here. -/
def set (st : Registry) (key : String) (val : Rat) : Registry × Option Bool :=
  if has st key = false then (st, some false)
  else
    (st.map (fun f =>
      if f.key == key then { f with count := val, isset := true } else f),
     none)

/-- `EventFlags.add(key, val)`: returns `False` if `key` is undefined,
otherwise `__count += val`, marks `__isset`, returns `None`. -/
def add (st : Registry) (key : String) (val : Rat) : Registry × Option Bool :=
  if has st key = false then (st, some false)
  else
    (st.map (fun f =>
      if f.key == key then { f with count := f.count + val, isset := true } else f),
     none)

/-- `EventFlags.is_set(key)`: `False` if undefined, else the flag's `__isset`. -/
def is_set (st : Registry) (key : String) : Bool :=
  if has st key = false then false
  else ((lookup st key).map Flag.isset).getD false

/-- `EventFlags.get(key)`: `None` if undefined, else the flag's `__count`. -/
def get (st : Registry) (key : String) : Option Rat :=
  if has st key = false then none
  else (lookup st key).map Flag.count

/-- `EventFlags.integral(key)`: `None` if undefined, else the flag's `__accum`. -/
def integral (st : Registry) (key : String) : Option Rat :=
  if has st key = false then none
  else (lookup st key).map Flag.accum

/-- The guarded definitions inside `EventFlags.when`:
`if flag != None and EventFlags.has(flag) == False : EventFlags.define(flag)`. -/
def defineIfMissing (st : Registry) : Option String → Registry
  | none => st
  | some k => if has st k = false then define st k else st

/-- `EventFlags.set` applied to an argument that may be Python `None`
(`has(None)` is `False` since only strings are registered, so `set(None)`
returns `False` without touching the registry). -/
def setOpt (st : Registry) : Option String → Registry × Option Bool
  | none => (st, some false)
  | some k => set st k 1

/-- `EventFlags.when(condition, set_flag, otherwise_set_flag)`: defines both
flags when missing regardless of `condition`, then sets exactly the one
matching `condition` (with the default value `1.0`), and returns `condition`. -/
def when (st : Registry) (condition : Bool) (set_flag otherwise_set_flag : Option String) :
    Registry × Bool :=
  let st1 := defineIfMissing st set_flag
  let st2 := defineIfMissing st1 otherwise_set_flag
  let st3 := if condition = true then (setOpt st2 set_flag).1
             else (setOpt st2 otherwise_set_flag).1
  (st3, condition)

/-- `EventFlags.accumulate()`: for every flag, `__accum += __count`, then
`__count = 0.0` and `__isset = False`. -/
def accumulate (st : Registry) : Registry :=
  st.map (fun f => { f with accum := f.accum + f.count, count := 0, isset := false })

/-- `EventFlags.clear()`: for every flag, `__count = 0.0`, `__isset = False`. -/
def clear (st : Registry) : Registry :=
  st.map (fun f => { f with count := 0, isset := false })

/-- `EventFlags.reset()`: zeroes `__accum`, `__count`, `__isset` for all flags. -/
def reset (st : Registry) : Registry :=
  st.map (fun f => { f with accum := 0, count := 0, isset := false })

/-- The data printed by `EventFlags.output()`: the header's flag count and one
`(accum, key)` line per flag in insertion order. -/
structure Report where
  nselects : Nat
  lines : List (Rat × String)
deriving Repr, DecidableEq

/-- `EventFlags.output()` as a pure projection of the registry. -/
def output (st : Registry) : Report :=
  { nselects := ndef st
    lines := st.map (fun f => (f.accum, f.key)) }

/-! ## The analysis loop (`analysis_framework.py`, `VANLModule`) -/

/-- The remaining-time computation of `VANLModule._print_progress`, as a
function of the configuration, the entry, and the elapsed wall time `dt`
(seconds, `(now - self.start_time).total_seconds()`).  Result: `Except` models
a raised `ZeroDivisionError`; `some rest_time` is the remaining-time estimate
of a printed progress line, `none` means the entry is not a print entry
(`current_entry % print_frequency ≠ 0`) and nothing is computed.  The source
computes `progress_in_dt = current_entry / dt` unconditionally; Python raises
`ZeroDivisionError` on float division by zero, so `dt = 0` is an error branch.
Only the later division `rest_entries / progress_in_dt` is guarded
(`if progress_in_dt != 0`, with `rest_time = 0` otherwise). -/
def print_progress (print_frequency : Int) (nentries : Int) (current_entry : Int)
    (dt : Rat) : Except PyError (Option Rat) :=
  if print_frequency = 0 then .error .zeroDiv
  else if current_entry % print_frequency = 0 then
    if dt = 0 then .error .zeroDiv
    else
      let progress_in_dt : Rat := (current_entry : Rat) / dt
      let rest_entries : Rat := (nentries : Rat) - (current_entry : Rat)
      let rest_time : Rat := if progress_in_dt ≠ 0 then rest_entries / progress_in_dt else 0
      .ok (some rest_time)
  else .ok none

/-- The values a `user_event_routine` can end with.  Every return path of a
routine goes through one of the helpers `ok_event` / `skip_event` /
`quit_loop` of `VANLModule`, each of which calls `EventFlags.accumulate()`
before returning its status (`quit_loop` additionally calls
`self._print_progress(self.nentries - 1)`). -/
inductive EventReturn where
  | okEvent
  | skipEvent
  | quitLoop
deriving Repr, DecidableEq

/-- The `AnalysisStatus` produced by each helper. -/
def finishStatus : EventReturn → AnalysisStatus
  | .okEvent => .OKEvent
  | .skipEvent => .SkipEvent
  | .quitLoop => .QuitLoop

/-- A user module: the overridable hooks of `VANLModule`.  The hooks may read
and write the (class-global) flag registry, so each is a state transformer.
`event` is the body of `user_event_routine` up to its final helper call: it
returns the registry after the user's flag operations together with the
helper chosen for the return. -/
structure UserModule where
  beforeLoop : Registry → Registry × AnalysisStatus
  event : Nat → Registry → Registry × EventReturn
  afterLoop : Registry → Registry × AnalysisStatus

/-- Trace accumulator for the `for entry in entry_list` loop of
`run_analysis`.  Besides the registry it records, in order: the arguments of
every `_print_progress` call, the registry state at each invocation of the
user event routine, and the entries for which the routine ran. -/
structure LoopAcc where
  reg : Registry
  progress : List Int
  callbackStates : List (Nat × Registry)
  processed : List Nat
deriving Repr

/-- One iteration of the loop body of `run_analysis`:
`evs.clear()`, then `_run_loop(entry)` (which calls
`_print_progress(entry)`, positions the record source, and runs
`user_event_routine`), whose helper return accumulates the registry, and
`quit_loop` also signals progress at `nentries - 1`.  The second component is
whether the `== stt.QuitLoop` test breaks the loop. -/
def runLoopStep (m : UserModule) (nentries : Int) (acc : LoopAcc) (entry : Nat) :
    LoopAcc × Bool :=
  let st0 := clear acc.reg
  let prog1 := acc.progress ++ [(entry : Int)]
  let stepResult := m.event entry st0
  let st2 := accumulate stepResult.1
  let prog2 := match stepResult.2 with
    | .quitLoop => prog1 ++ [nentries - 1]
    | _ => prog1
  ({ reg := st2
     progress := prog2
     callbackStates := acc.callbackStates ++ [(entry, st0)]
     processed := acc.processed ++ [entry] },
   finishStatus stepResult.2 == .QuitLoop)

/-- The loop of `run_analysis` over the entry list. -/
def runLoopList (m : UserModule) (nentries : Int) : List Nat → LoopAcc → LoopAcc
  | [], acc => acc
  | e :: es, acc =>
    let step := runLoopStep m nentries acc e
    if step.2 then step.1 else runLoopList m nentries es step.1

/-- The observable outcome of `run_analysis`: final registry, progress-signal
trace, per-record callback entry states, processed entries, the final report
if `evs.output()` was reached (`none` means it was never called), and the
method's Python return value (`some ErrFunc` on a failed hook, `none` for the
implicit `return None` at the end). -/
structure RunResult where
  reg : Registry
  progress : List Int
  callbackStates : List (Nat × Registry)
  processed : List Nat
  report : Option Report
  retval : Option AnalysisStatus
deriving Repr

/-- `VANLModule.run_analysis`: run `user_before_loop`; on any status other
than `OKFunc` return `ErrFunc` at once.  Otherwise loop over
`range(self.nentries)` (empty when `nentries < 0`), breaking on `QuitLoop`.
Then run `user_after_loop`; on failure return `ErrFunc` at once.  Only after
a successful after-hook is `evs.output()` called. -/
def run_analysis (m : UserModule) (nentries : Int) (st : Registry) : RunResult :=
  let before := m.beforeLoop st
  if before.2 ≠ .OKFunc then
    { reg := before.1, progress := [], callbackStates := [], processed := []
      report := none, retval := some .ErrFunc }
  else
    let acc := runLoopList m nentries (List.range nentries.toNat)
      { reg := before.1, progress := [], callbackStates := [], processed := [] }
    let after := m.afterLoop acc.reg
    if after.2 ≠ .OKFunc then
      { reg := after.1, progress := acc.progress, callbackStates := acc.callbackStates
        processed := acc.processed, report := none, retval := some .ErrFunc }
    else
      { reg := after.1, progress := acc.progress, callbackStates := acc.callbackStates
        processed := acc.processed, report := some (output after.1), retval := none }

/-! ## The `EventFlags.status` accessor (`event_flags.py`, lines 52-58) -/

/-- The class-level attributes of `EventFlags` besides the flag dict:
`__verbose_level` and `__status`. -/
structure ClassState where
  dict_of_flags : Registry
  verbose_level : Int
  status_attr : AnalysisStatus
deriving Repr

/-- The names a bare identifier inside the body of `EventFlags.status` can
resolve to: the method's local scope (`cls`), the module globals of
`event_flags.py` (the import `stt` and the class `EventFlags`), and no
relevant builtin.  Class attributes are not part of this search. -/
def statusScopeNames : List String :=
  ["cls", "stt", "EventFlags"]

/-- `EventFlags.status()`: the body is `return __status`.  Inside a class
body, Python mangles the identifier `__status` to `_EventFlags__status`; the
class attribute of that mangled name exists, but a bare-name reference is
resolved through locals, enclosing scopes, module globals and builtins only,
so the method raises `NameError` iff `_EventFlags__status` is absent from
those scopes. -/
def statusMethod (cs : ClassState) : Except PyError AnalysisStatus :=
  if statusScopeNames.contains "_EventFlags__status" then .ok cs.status_attr
  else .error .nameError

/-! ## Concrete modules and states used in closed theorems -/

/-- A user module that defines one flag `"n"` in the before-hook, sets it to
`1` on every record, and quits the loop at entry 2 (the scenario of the
end-to-end abort test). -/
def demoModule : UserModule where
  beforeLoop st := (define st "n", .OKFunc)
  event e st := ((set st "n" 1).1, if e == 2 then .quitLoop else .okEvent)
  afterLoop st := (st, .OKFunc)

/-- A user module whose before-hook reports failure. -/
def badSetupModule : UserModule where
  beforeLoop st := (st, .ErrFunc)
  event _ st := (st, .okEvent)
  afterLoop st := (st, .OKFunc)

/-- A user module whose after-hook reports failure; it defines and sets a
flag `"n"` on every record, so totals are accumulated before the failure. -/
def badTeardownModule : UserModule where
  beforeLoop st := (define st "n", .OKFunc)
  event _ st := ((set st "n" 1).1, .okEvent)
  afterLoop st := (st, .ErrFunc)

/-! ## Helper lemmas about the registry operations -/

theorem lookup_key {st : Registry} {k : String} {f : Flag}
    (h : lookup st k = some f) : f.key = k := by
  have := List.find?_some h
  simpa using this

theorem lookup_map_of_key (g : Flag → Flag) (hg : ∀ f, (g f).key = f.key)
    (st : Registry) (k : String) :
    lookup (st.map g) k = (lookup st k).map g := by
  unfold lookup
  rw [List.find?_map]
  have hp : ((fun f => f.key == k) ∘ g) = (fun f : Flag => f.key == k) := by
    funext f
    simp [Function.comp, hg]
  rw [hp]

theorem lookup_append (s t : Registry) (k : String) :
    lookup (s ++ t) k = (lookup s k).or (lookup t k) :=
  List.find?_append

theorem has_iff_lookup {st : Registry} {k : String} :
    has st k = true ↔ ∃ f, lookup st k = some f := by
  simp [has, Option.isSome_iff_exists]

theorem has_false_lookup {st : Registry} {k : String}
    (h : has st k = false) : lookup st k = none := by
  unfold has at h
  rcases hl : lookup st k with _ | f
  · rfl
  · rw [hl] at h
    simp at h

theorem lookup_set {st : Registry} {k : String} (v : Rat) (x : String)
    (h : has st k = true) :
    lookup (set st k v).1 x =
      (lookup st x).map (fun f =>
        if f.key == k then { f with count := v, isset := true } else f) := by
  unfold set
  rw [if_neg (by simp [h])]
  exact lookup_map_of_key _
    (fun f => by by_cases hf : (f.key == k) = true <;> simp [hf]) st x

theorem lookup_add {st : Registry} {k : String} (v : Rat) (x : String)
    (h : has st k = true) :
    lookup (add st k v).1 x =
      (lookup st x).map (fun f =>
        if f.key == k then { f with count := f.count + v, isset := true } else f) := by
  unfold add
  rw [if_neg (by simp [h])]
  exact lookup_map_of_key _
    (fun f => by by_cases hf : (f.key == k) = true <;> simp [hf]) st x

theorem has_set {st : Registry} {k : String} {v : Rat} (x : String) :
    has (set st k v).1 x = has st x := by
  by_cases h : has st k = true
  · simp [has, lookup_set v x h]
  · simp only [Bool.not_eq_true] at h
    simp [set, h]

theorem has_add {st : Registry} {k : String} {v : Rat} (x : String) :
    has (add st k v).1 x = has st x := by
  by_cases h : has st k = true
  · simp [has, lookup_add v x h]
  · simp only [Bool.not_eq_true] at h
    simp [add, h]

theorem get_set_self {st : Registry} {k : String} (v : Rat)
    (h : has st k = true) :
    get (set st k v).1 k = some v := by
  rcases has_iff_lookup.mp h with ⟨f, hf⟩
  have hk := lookup_key hf
  simp [get, has, lookup_set v k h, hf, hk]

theorem is_set_set_self {st : Registry} {k : String} (v : Rat)
    (h : has st k = true) :
    is_set (set st k v).1 k = true := by
  rcases has_iff_lookup.mp h with ⟨f, hf⟩
  have hk := lookup_key hf
  simp [is_set, has, lookup_set v k h, hf, hk]

theorem get_set_other {st : Registry} {k x : String} (v : Rat)
    (hx : x ≠ k) :
    get (set st k v).1 x = get st x := by
  by_cases h : has st k = true
  · rcases hl : lookup st x with _ | f
    · simp [get, has, lookup_set v x h, hl]
    · have hk := lookup_key hl
      simp [get, has, lookup_set v x h, hl, hk, hx]
  · simp only [Bool.not_eq_true] at h
    simp [set, h]

theorem is_set_set_other {st : Registry} {k x : String} (v : Rat)
    (hx : x ≠ k) :
    is_set (set st k v).1 x = is_set st x := by
  by_cases h : has st k = true
  · rcases hl : lookup st x with _ | f
    · simp [is_set, has, lookup_set v x h, hl]
    · have hk := lookup_key hl
      simp [is_set, has, lookup_set v x h, hl, hk, hx]
  · simp only [Bool.not_eq_true] at h
    simp [set, h]

theorem get_add_self {st : Registry} {k : String} {c : Rat} (v : Rat)
    (h : get st k = some c) :
    get (add st k v).1 k = some (c + v) := by
  by_cases hh : has st k = true
  · rcases has_iff_lookup.mp hh with ⟨f, hf⟩
    have hk := lookup_key hf
    have hc : f.count = c := by simpa [get, hh, hf] using h
    simp [get, has, lookup_add v k hh, hf, hk, hc]
  · simp only [Bool.not_eq_true] at hh
    simp [get, hh] at h

theorem set_undefined {st : Registry} {k : String} (v : Rat)
    (h : has st k = false) :
    set st k v = (st, some false) := by
  simp [set, h]

theorem add_undefined {st : Registry} {k : String} (v : Rat)
    (h : has st k = false) :
    add st k v = (st, some false) := by
  simp [add, h]

theorem define_of_has {st : Registry} {k : String}
    (h : has st k = true) : define st k = st := by
  simp [define, h]

theorem lookup_define_self {st : Registry} {k : String}
    (h : has st k = false) :
    lookup (define st k) k = some (initFlag st k) := by
  unfold define
  rw [if_neg (by simp [h])]
  rw [lookup_append, has_false_lookup h]
  simp [lookup, initFlag, h]

theorem lookup_define_other {st : Registry} {k x : String} (hx : x ≠ k) :
    lookup (define st k) x = lookup st x := by
  by_cases h : has st k = true
  · simp [define_of_has h]
  · simp only [Bool.not_eq_true] at h
    unfold define
    rw [if_neg (by simp [h])]
    rw [lookup_append]
    rcases hl : lookup st x with _ | f
    · simp [lookup, initFlag, h, Ne.symm hx]
    · simp [hl]

theorem has_define_self (st : Registry) (k : String) :
    has (define st k) k = true := by
  by_cases h : has st k = true
  · simp [define_of_has h, h]
  · simp only [Bool.not_eq_true] at h
    simp [has, lookup_define_self h]

theorem dm_some_eq (st : Registry) (k : String) :
    defineIfMissing st (some k) = if has st k = false then define st k else st :=
  rfl

theorem dm_has_self (st : Registry) (k : String) :
    has (defineIfMissing st (some k)) k = true := by
  rw [dm_some_eq]
  by_cases h : has st k = true
  · rw [if_neg (by simp [h])]
    exact h
  · simp only [Bool.not_eq_true] at h
    rw [if_pos h]
    exact has_define_self st k

theorem dm_lookup_other (st : Registry) {k x : String} (hx : x ≠ k) :
    lookup (defineIfMissing st (some k)) x = lookup st x := by
  rw [dm_some_eq]
  by_cases h : has st k = true
  · rw [if_neg (by simp [h])]
  · simp only [Bool.not_eq_true] at h
    rw [if_pos h]
    exact lookup_define_other hx

theorem dm_has_other (st : Registry) {k x : String} (hx : x ≠ k) :
    has (defineIfMissing st (some k)) x = has st x := by
  simp [has, dm_lookup_other st hx]

theorem dm_get_self (st : Registry) (k : String) :
    get (defineIfMissing st (some k)) k =
      if has st k = true then get st k else some 0 := by
  rw [dm_some_eq]
  by_cases h : has st k = true
  · rw [if_neg (by simp [h]), if_pos h]
  · simp only [Bool.not_eq_true] at h
    rw [if_pos h, if_neg (by simp [h])]
    simp [get, has, lookup_define_self h, initFlag, h]

theorem dm_is_set_self (st : Registry) (k : String) :
    is_set (defineIfMissing st (some k)) k =
      if has st k = true then is_set st k else false := by
  rw [dm_some_eq]
  by_cases h : has st k = true
  · rw [if_neg (by simp [h]), if_pos h]
  · simp only [Bool.not_eq_true] at h
    rw [if_pos h, if_neg (by simp [h])]
    simp [is_set, has, lookup_define_self h, initFlag, h]

theorem dm_get_other (st : Registry) {k x : String} (hx : x ≠ k) :
    get (defineIfMissing st (some k)) x = get st x := by
  simp [get, has, dm_lookup_other st hx]

theorem dm_is_set_other (st : Registry) {k x : String} (hx : x ≠ k) :
    is_set (defineIfMissing st (some k)) x = is_set st x := by
  simp [is_set, has, dm_lookup_other st hx]

/-! ## Claim theorems -/

/-- Claim C2 (amended): `EventFlags.accumulate` increases each flag's
`accumulated_total` by exactly its pre-call `current_value` — but because it
also resets `current_value` to `0`, a second call without an intervening
`clear` adds nothing: the totals after two consecutive calls equal the totals
after one, so there is no double-counting. -/
theorem accumulate_adds_pre_call_value_once (st : Registry) :
    (accumulate st).map Flag.accum = st.map (fun f => f.accum + f.count) ∧
    (accumulate (accumulate st)).map Flag.accum = st.map (fun f => f.accum + f.count) := by
  constructor
  · induction st with
    | nil => rfl
    | cons f fs ih => simp [accumulate]
  · induction st with
    | nil => rfl
    | cons f fs ih => simp [accumulate]

/-- Claim C2 counterexample: on a registry holding one flag with
`current_value = 1` and `accumulated_total = 0`, two consecutive
`accumulate` calls leave the total at `1`, not at the claimed
double-counted `2`. -/
theorem accumulate_twice_no_double_count :
    integral (accumulate (accumulate
        [{ key := "a", count := 1, isset := true, accum := 0 }])) "a" = some 1 ∧
    integral (accumulate (accumulate
        [{ key := "a", count := 1, isset := true, accum := 0 }])) "a" ≠ some 2 := by
  have h : integral (accumulate (accumulate
      [{ key := "a", count := 1, isset := true, accum := 0 }])) "a" =
      some ((0 : Rat) + 1 + 0) := rfl
  rw [h]
  norm_num

/-- Claim C4 (amended): registering a name that already exists is an
idempotent no-op: `define` leaves the registry unchanged and registers no
disambiguated `name-k` flag (the constructor computes such a name but no
code path registers or returns it); calling `define` twice in a row with the
same name registers the name once. -/
theorem define_idempotent (st : Registry) (key : String) :
    define (define st key) key = define st key ∧
    has (define st key) key = true :=
  ⟨define_of_has (has_define_self st key), has_define_self st key⟩

/-- Claim C4 counterexample: `define "x"` called twice in a row on an empty
registry registers only `"x"`; no flag `"x-2"` is ever registered (and the
second call is a no-op, returning `None` in the source rather than a name). -/
theorem define_twice_no_x2 :
    (define (define ([] : Registry) "x") "x").map Flag.key = ["x"] ∧
    has (define (define ([] : Registry) "x") "x") "x-2" = false := by
  decide

/-- Claim C6: `when(condition, set_flag, otherwise_set_flag)` defines both
names whether or not they were defined before and regardless of `condition`,
sets the flag matching `condition` to the nonzero default `1`, leaves the
other flag's current value at `0` (provided it was undefined or at its
cleared default, as at the start of a record), and returns `condition`
unchanged. -/
theorem when_sets_exactly_one (st : Registry) (condition : Bool) (a b : String)
    (hab : a ≠ b)
    (hother : has st (if condition then b else a) = false ∨
      (get st (if condition then b else a) = some 0 ∧
       is_set st (if condition then b else a) = false)) :
    (when st condition (some a) (some b)).2 = condition ∧
    has (when st condition (some a) (some b)).1 a = true ∧
    has (when st condition (some a) (some b)).1 b = true ∧
    get (when st condition (some a) (some b)).1 (if condition then a else b) = some 1 ∧
    is_set (when st condition (some a) (some b)).1 (if condition then a else b) = true ∧
    get (when st condition (some a) (some b)).1 (if condition then b else a) = some 0 ∧
    is_set (when st condition (some a) (some b)).1 (if condition then b else a) = false := by
  cases condition with
  | true =>
    have e1 : (if true = true then a else b) = a := rfl
    have e2 : (if true = true then b else a) = b := rfl
    rw [e2] at hother
    rw [e1, e2]
    have hwhen : when st true (some a) (some b) =
        ((set (defineIfMissing (defineIfMissing st (some a)) (some b)) a 1).1, true) := rfl
    rw [hwhen]
    have hsta : has (defineIfMissing (defineIfMissing st (some a)) (some b)) a = true := by
      rw [dm_has_other _ hab]
      exact dm_has_self st a
    refine ⟨rfl, ?_, ?_, ?_, ?_, ?_, ?_⟩
    · rw [has_set]
      exact hsta
    · rw [has_set]
      exact dm_has_self _ b
    · exact get_set_self 1 hsta
    · exact is_set_set_self 1 hsta
    · rw [get_set_other 1 (Ne.symm hab), dm_get_self, dm_has_other st (Ne.symm hab)]
      rcases hother with h | ⟨h0, _⟩
      · rw [if_neg (by simp [h])]
      · have hb : has st b = true := by
          by_contra hc
          simp only [Bool.not_eq_true] at hc
          simp [get, hc] at h0
        rw [if_pos hb, dm_get_other st (Ne.symm hab)]
        exact h0
    · rw [is_set_set_other 1 (Ne.symm hab), dm_is_set_self, dm_has_other st (Ne.symm hab)]
      rcases hother with h | ⟨_, hs⟩
      · rw [if_neg (by simp [h])]
      · by_cases hb : has st b = true
        · rw [if_pos hb, dm_is_set_other st (Ne.symm hab)]
          exact hs
        · simp only [Bool.not_eq_true] at hb
          rw [if_neg (by simp [hb])]
  | false =>
    have e1 : (if false = true then a else b) = b := rfl
    have e2 : (if false = true then b else a) = a := rfl
    rw [e2] at hother
    rw [e1, e2]
    have hwhen : when st false (some a) (some b) =
        ((set (defineIfMissing (defineIfMissing st (some a)) (some b)) b 1).1, false) := rfl
    rw [hwhen]
    have hstb : has (defineIfMissing (defineIfMissing st (some a)) (some b)) b = true :=
      dm_has_self _ b
    refine ⟨rfl, ?_, ?_, ?_, ?_, ?_, ?_⟩
    · rw [has_set, dm_has_other _ hab]
      exact dm_has_self st a
    · rw [has_set]
      exact hstb
    · exact get_set_self 1 hstb
    · exact is_set_set_self 1 hstb
    · rw [get_set_other 1 hab, dm_get_other _ hab, dm_get_self]
      rcases hother with h | ⟨h0, _⟩
      · rw [if_neg (by simp [h])]
      · have ha : has st a = true := by
          by_contra hc
          simp only [Bool.not_eq_true] at hc
          simp [get, hc] at h0
        rw [if_pos ha]
        exact h0
    · rw [is_set_set_other 1 hab, dm_is_set_other _ hab, dm_is_set_self]
      rcases hother with h | ⟨_, hs⟩
      · rw [if_neg (by simp [h])]
      · by_cases ha : has st a = true
        · rw [if_pos ha]
          exact hs
        · simp only [Bool.not_eq_true] at ha
          rw [if_neg (by simp [ha])]

/-- Claim C6 witness: `when(true, "A", "B")` on an empty registry. -/
theorem when_sets_exactly_one_witness :
    (when [] true (some "A") (some "B")).2 = true ∧
    has (when [] true (some "A") (some "B")).1 "A" = true ∧
    has (when [] true (some "A") (some "B")).1 "B" = true ∧
    get (when [] true (some "A") (some "B")).1 "A" = some 1 ∧
    is_set (when [] true (some "A") (some "B")).1 "A" = true ∧
    get (when [] true (some "A") (some "B")).1 "B" = some 0 ∧
    is_set (when [] true (some "A") (some "B")).1 "B" = false :=
  when_sets_exactly_one [] true "A" "B" (by decide) (Or.inl (by decide))

/-- Claim C7: within one record, `set` is last-write-wins and `add` sums;
on an undefined name both fail silently returning `False` and leave the
registry unchanged.  The `add`-sums part is stated from a flag whose current
value is `0`, the state every record starts in after `clear`. -/
theorem set_lww_add_sums (st : Registry) (k : String) (v w : Rat) :
    (has st k = true → get (set (set st k v).1 k w).1 k = some w) ∧
    (get st k = some 0 → get (add (add st k v).1 k w).1 k = some (v + w)) ∧
    (has st k = false → set st k v = (st, some false) ∧ add st k v = (st, some false)) := by
  refine ⟨?_, ?_, ?_⟩
  · intro h
    have h1 : has (set st k v).1 k = true := by
      rw [has_set]
      exact h
    exact get_set_self w h1
  · intro h
    have h1 : get (add st k v).1 k = some (0 + v) := get_add_self v h
    have h2 : get (add (add st k v).1 k w).1 k = some (0 + v + w) := get_add_self w h1
    rw [h2, zero_add]
  · intro h
    exact ⟨set_undefined v h, add_undefined v h⟩

/-- Claim C7 witness: `set "a" 2` then `set "a" 5` leaves `5`; `add "a" 2`
then `add "a" 5` leaves `7`; `set`/`add` on the undefined `"b"` return
`False` and change nothing. -/
theorem set_lww_add_sums_witness :
    get (set (set [{ key := "a", count := 0, isset := false, accum := 0 }] "a" 2).1
        "a" 5).1 "a" = some 5 ∧
    get (add (add [{ key := "a", count := 0, isset := false, accum := 0 }] "a" 2).1
        "a" 5).1 "a" = some (2 + 5) ∧
    (set ([] : Registry) "b" 2 = ([], some false) ∧
     add ([] : Registry) "b" 2 = ([], some false)) :=
  ⟨(set_lww_add_sums [{ key := "a", count := 0, isset := false, accum := 0 }] "a" 2 5).1
      (by decide),
   (set_lww_add_sums [{ key := "a", count := 0, isset := false, accum := 0 }] "a" 2 5).2.1
      (by decide),
   (set_lww_add_sums [] "b" 2 5).2.2 (by decide)⟩

/-- Claim C9: querying an undefined name never raises and returns an
absent/false result: `is_set` gives `False`, `get` and `integral` give
`None`, which is distinct from the number `0`. -/
theorem undefined_queries_absent (st : Registry) (key : String)
    (h : has st key = false) :
    is_set st key = false ∧ get st key = none ∧ integral st key = none ∧
      get st key ≠ some 0 ∧ integral st key ≠ some 0 := by
  refine ⟨?_, ?_, ?_, ?_, ?_⟩ <;> simp [is_set, get, integral, h]

/-- Claim C9 witness: queries on the name `"missing"` in the empty registry. -/
theorem undefined_queries_absent_witness :
    is_set [] "missing" = false ∧ get [] "missing" = none ∧
      integral [] "missing" = none ∧ get [] "missing" ≠ some 0 ∧
      integral [] "missing" ≠ some 0 :=
  undefined_queries_absent [] "missing" (by decide)

/-- Claim C10: for every class state, `EventFlags.status()` raises
`NameError`: its body reads the bare name `__status`, which mangles to
`_EventFlags__status` and is bound in no scope the name lookup searches, so
the accessor can never return a value. -/
theorem status_always_raises (cs : ClassState) :
    statusMethod cs = Except.error PyError.nameError := by
  unfold statusMethod
  rw [if_neg (by decide)]

/-- Claim C3 evaluated at the failing input (code bug): when the elapsed
wall time `dt` is zero at a print entry, `_print_progress` raises
`ZeroDivisionError` from the unguarded `current_entry / dt` instead of
degrading to a zero estimate; the guard `if progress_in_dt != 0` only covers
the other division, e.g. entry `0` with `dt = 1` degrades to estimate `0`. -/
theorem print_progress_zero_dt_raises :
    print_progress 100 1000 100 0 = Except.error PyError.zeroDiv ∧
    print_progress 100 1000 0 1 = Except.ok (some 0) := by
  constructor
  · rfl
  · norm_num [print_progress]

/-- Claim C1 (amended): `run_analysis` prints the cumulative flag report iff
the run completes without a hook failure: when the setup hook or the teardown
hook reports failure the method returns `ErrFunc` immediately and
`EventFlags.output()` is never called; when both hooks succeed the report of
the final registry is printed. -/
theorem report_printed_iff_no_hook_failure (m : UserModule) (nentries : Int)
    (st : Registry) :
    ((run_analysis m nentries st).report.isSome ↔
      (run_analysis m nentries st).retval = none) ∧
    ((run_analysis m nentries st).retval = none →
      (run_analysis m nentries st).report =
        some (output (run_analysis m nentries st).reg)) := by
  simp only [run_analysis]
  split
  · simp
  · split
    · simp
    · simp

/-- Claim C1 counterexample: with a failing setup hook (and likewise with a
failing teardown hook after three records accumulated a total of `3` on the
flag `"n"`), `run_analysis` terminates with `ErrFunc` and no report is
printed — contradicting the claim that the cumulative report is still
printed on an errored run. -/
theorem error_run_prints_no_report :
    (run_analysis badSetupModule 3 []).retval = some AnalysisStatus.ErrFunc ∧
    (run_analysis badSetupModule 3 []).report = none ∧
    (run_analysis badTeardownModule 3 []).retval = some AnalysisStatus.ErrFunc ∧
    (run_analysis badTeardownModule 3 []).report = none ∧
    integral (run_analysis badTeardownModule 3 []).reg "n" = some 3 := by
  refine ⟨rfl, rfl, rfl, rfl, ?_⟩
  have h : integral (run_analysis badTeardownModule 3 []).reg "n" =
      some (((0 : Rat) + 1 + 1) + 1) := rfl
  rw [h]
  norm_num

/-- Claim C5: in a run with `total_records = 10` whose callback returns via
`quit_loop` at entry 2, exactly the records 0, 1, 2 are processed, the loop
breaks and a final progress signal is forced at `total_records - 1 = 9`, and
the final report counts only those 3 records. -/
theorem abort_at_two_processes_three :
    (run_analysis demoModule 10 []).processed = [0, 1, 2] ∧
    (run_analysis demoModule 10 []).progress = [0, 1, 2, 9] ∧
    (run_analysis demoModule 10 []).report =
      some { nselects := 1, lines := [(3, "n")] } ∧
    (run_analysis demoModule 10 []).retval = none := by
  refine ⟨by decide, by decide, ?_, rfl⟩
  show (run_analysis demoModule 10 []).report =
    some { nselects := 1, lines := [(3, "n")] }
  simp [run_analysis, runLoopList, runLoopStep, clear, accumulate, set, define, has,
    lookup, initFlag, output, ndef, finishStatus, demoModule, List.range_succ]
  norm_num

/-- Every flag of a just-cleared registry has zero current value and an
unset marker. -/
theorem clear_all_zero (st : Registry) :
    ∀ f ∈ clear st, f.count = 0 ∧ f.isset = false := by
  intro f hf
  rw [clear, List.mem_map] at hf
  rcases hf with ⟨g, _, rfl⟩
  exact ⟨rfl, rfl⟩

/-- Loop invariant for claim C8: every registry state recorded at a callback
invocation by `runLoopList` consists of cleared flags. -/
theorem runLoopList_callback_cleared (m : UserModule) (n : Int) :
    ∀ (es : List Nat) (acc : LoopAcc),
      (∀ p ∈ acc.callbackStates, ∀ f ∈ p.2, f.count = 0 ∧ f.isset = false) →
      ∀ p ∈ (runLoopList m n es acc).callbackStates, ∀ f ∈ p.2,
        f.count = 0 ∧ f.isset = false := by
  intro es
  induction es with
  | nil =>
    intro acc hacc
    exact hacc
  | cons e es ih =>
    intro acc hacc
    have hstep : ∀ p ∈ (runLoopStep m n acc e).1.callbackStates, ∀ f ∈ p.2,
        f.count = 0 ∧ f.isset = false := by
      intro p hp
      have hp2 : p ∈ acc.callbackStates ++ [(e, clear acc.reg)] := hp
      rcases List.mem_append.mp hp2 with h | h
      · exact hacc p h
      · have hpe : p = (e, clear acc.reg) := by simpa using h
        subst hpe
        exact clear_all_zero acc.reg
    show ∀ p ∈ (runLoopList m n (e :: es) acc).callbackStates, ∀ f ∈ p.2,
      f.count = 0 ∧ f.isset = false
    rw [runLoopList]
    split
    · exact hstep
    · exact ih _ hstep

/-- Claim C8: during `run_analysis`, for every processed record the registry
state handed to the per-record callback has every flag's `current_value = 0`
and `is_set_this_record = false`: `clear` runs strictly before the callback
and each record is closed out by `accumulate` (which also zeroes per-record
state) strictly after it, so no record's flag state leaks into the next
record's current value. -/
theorem callback_sees_cleared_state (m : UserModule) (nentries : Int)
    (st : Registry) :
    ∀ p ∈ (run_analysis m nentries st).callbackStates, ∀ f ∈ p.2,
      f.count = 0 ∧ f.isset = false := by
  intro p hp
  simp only [run_analysis] at hp
  split at hp
  · exact absurd hp (List.not_mem_nil p)
  · split at hp
    · exact runLoopList_callback_cleared m nentries _ _ (fun q hq => by simp at hq) p hp
    · exact runLoopList_callback_cleared m nentries _ _ (fun q hq => by simp at hq) p hp

/-- Claim C8 witness: the first callback of the abort-demo run sees the flag
`"n"` cleared. -/
theorem callback_sees_cleared_state_witness :
    ({ key := "n", count := 0, isset := false, accum := 0 } : Flag).count = 0 ∧
    ({ key := "n", count := 0, isset := false, accum := 0 } : Flag).isset = false :=
  callback_sees_cleared_state demoModule 10 []
    (0, [{ key := "n", count := 0, isset := false, accum := 0 }]) (by decide)
    { key := "n", count := 0, isset := false, accum := 0 } (by decide)

end Anlpy2
